import Mathlib

/-!
# Shallow embedding of the secure-auth-poc token lifecycle

This file embeds the token lifecycle core of the repository
(AuthService, RefreshTokenRepository, TokenBlacklist, TokenManager,
authGuard, UserRepository) as executable Lean definitions and proves
properties of the embedded code.

Modelling conventions:

* Raw strings handled by the code (JWTs, UUIDs, digests) are modelled by the
  inductive type `Str`: `Str.raw s` is an opaque string (for example a UUID
  from crypto.randomUUID), `Str.jwt t` is the output of jwt.sign on the
  structured token `t`, and `Str.sha256 s` is the hex digest produced by
  crypto.createHash over the string `s`.  This is the standard symbolic
  model of the cryptographic primitives: signing and hashing are injective
  and their images are disjoint — exactly the (computational) guarantees the
  code relies on.  Byte-identity of strings is equality of `Str` values.
* Times are `Nat`.  The ledger (Prisma Date values) works in milliseconds,
  JWT claims and Redis TTLs in seconds; the code's Date.now() / 1000
  conversions are kept explicit.
* Asynchronous methods are pure state-passing functions; a thrown exception
  is an `Except.error`.  Code that mutates state and then throws (the reuse
  detection branch of refresh) returns the mutated state alongside the error.
* JavaScript truthiness tests on numbers (if (x) with x possibly 0) are
  modelled by `truthyNat`, which is false for both null and 0, exactly as in
  the source.
-/

/-- Structured claims signed into a JWT: the code signs either an
AccessTokenPayload {userId, email} or a RefreshTokenPayload
{userId, tokenId} (TokenManager.ts). -/
inductive JwtClaims where
  | access (userId email : String)
  | refresh (userId tokenId : String)
deriving DecidableEq, Repr

/-- A signed token as produced by jwt.sign: claims plus the registered
claims (iat, exp, iss, aud, jti) and the signing secret.  iat and exp are
optional because jwt.verify accepts tokens lacking them (the guard's
missing-iat branch defends against exactly that). -/
structure JwtToken where
  claims : JwtClaims
  iat : Option Nat
  exp : Option Nat
  iss : String
  aud : String
  secret : String
  jti : Option String
deriving DecidableEq, Repr

/-- The symbolic string universe: opaque strings, signed JWTs, and sha-256
hex digests.  See the module docstring. -/
inductive Str where
  | raw : String → Str
  | jwt : JwtToken → Str
  | sha256 : Str → Str
deriving DecidableEq, Repr

/-- A sha-256 hex digest is never byte-identical to its preimage (a 64-char
hex string cannot equal the longer JWT it digests); in the symbolic model
this is constructor acyclicity. -/
theorem Str.sha256_ne (s : Str) : Str.sha256 s ≠ s := by
  intro h
  have := congrArg sizeOf h
  simp at this

/-- Error taxonomy of AppError.ts plus plain Error / Prisma errors
(modelled as internal). -/
inductive AppError where
  | unauthorized (msg : String)
  | conflict (msg : String)
  | badRequest (msg : String)
  | internal (msg : String)
deriving DecidableEq, Repr

/-- JavaScript truthiness of a number-or-null value: null and 0 are falsy
(used for if (revocationTimestamp) and if (!payload.iat) in authGuard.ts). -/
def truthyNat : Option Nat → Bool
  | none => false
  | some n => n != 0

namespace Env

/-- env.ts: JWT_ACCESS_SECRET (an opaque configured secret). -/
def JWT_ACCESS_SECRET : String := "JWT_ACCESS_SECRET"

/-- env.ts: JWT_REFRESH_SECRET, distinct from the access secret. -/
def JWT_REFRESH_SECRET : String := "JWT_REFRESH_SECRET"

/-- env.ts default JWT_ACCESS_EXPIRES_IN = '15m', in seconds. -/
def JWT_ACCESS_EXPIRES_IN_SEC : Nat := 15 * 60

/-- env.ts default JWT_REFRESH_EXPIRES_IN = '7d', in seconds (used by
jwt.sign in TokenManager.generateRefreshToken). -/
def JWT_REFRESH_EXPIRES_IN_SEC : Nat := 7 * 24 * 60 * 60

/-- env.ts default JWT_REFRESH_EXPIRES_IN = '7d' as the parsed
(value, unit) pair consumed by AuthService.calculateExpiration. -/
def JWT_REFRESH_EXPIRES_IN : Nat × Char := (7, 'd')

/-- env.ts default REFRESH_GRACE_PERIOD_SECONDS = 10. -/
def REFRESH_GRACE_PERIOD_SECONDS : Nat := 10

end Env

namespace TokenManager

/-- Payload returned by TokenManager.verifyAccessToken. -/
structure AccessTokenPayload where
  userId : String
  email : String
  iat : Option Nat
  exp : Option Nat
deriving DecidableEq, Repr

/-- Payload returned by TokenManager.verifyRefreshToken. -/
structure RefreshTokenPayload where
  userId : String
  tokenId : String
deriving DecidableEq, Repr

/-- TokenManager.generateAccessToken: jwt.sign({userId, email}, access
secret, {expiresIn: 15m, issuer, audience: 'api', jwtid: randomUUID()}).
The jti oracle stands for the random UUID. -/
def generateAccessToken (userId email : String) (nowSec : Nat) (jti : String) : Str :=
  .jwt { claims := .access userId email
       , iat := some nowSec
       , exp := some (nowSec + Env.JWT_ACCESS_EXPIRES_IN_SEC)
       , iss := "secure-auth-poc"
       , aud := "api"
       , secret := Env.JWT_ACCESS_SECRET
       , jti := some jti }

/-- TokenManager.generateRefreshToken: jwt.sign({userId, tokenId}, refresh
secret, {expiresIn: env.JWT_REFRESH_EXPIRES_IN, issuer, audience:
'refresh'}).  Note the lifetime is always the fixed env value. -/
def generateRefreshToken (userId tokenId : String) (nowSec : Nat) : Str :=
  .jwt { claims := .refresh userId tokenId
       , iat := some nowSec
       , exp := some (nowSec + Env.JWT_REFRESH_EXPIRES_IN_SEC)
       , iss := "secure-auth-poc"
       , aud := "refresh"
       , secret := Env.JWT_REFRESH_SECRET
       , jti := none }

/-- TokenManager.verifyAccessToken: jwt.verify against the access secret,
issuer and audience 'api'; any failure (bad signature, wrong scope,
expiry) is collapsed to the single Unauthorized message. -/
def verifyAccessToken (tok : Str) (nowSec : Nat) : Except AppError AccessTokenPayload :=
  match tok with
  | .jwt t =>
    if t.secret = Env.JWT_ACCESS_SECRET ∧ t.iss = "secure-auth-poc" ∧ t.aud = "api" then
      if t.exp.all (fun e => nowSec < e) then
        match t.claims with
        | .access u m => .ok ⟨u, m, t.iat, t.exp⟩
        | .refresh _ _ => .error (.unauthorized "Invalid or expired access token")
      else .error (.unauthorized "Invalid or expired access token")
    else .error (.unauthorized "Invalid or expired access token")
  | _ => .error (.unauthorized "Invalid or expired access token")

/-- TokenManager.verifyRefreshToken: jwt.verify against the refresh secret,
issuer and audience 'refresh'. -/
def verifyRefreshToken (tok : Str) (nowSec : Nat) : Except AppError RefreshTokenPayload :=
  match tok with
  | .jwt t =>
    if t.secret = Env.JWT_REFRESH_SECRET ∧ t.iss = "secure-auth-poc" ∧ t.aud = "refresh" then
      if t.exp.all (fun e => nowSec < e) then
        match t.claims with
        | .refresh u tid => .ok ⟨u, tid⟩
        | .access _ _ => .error (.unauthorized "Invalid or expired refresh token")
      else .error (.unauthorized "Invalid or expired refresh token")
    else .error (.unauthorized "Invalid or expired refresh token")
  | _ => .error (.unauthorized "Invalid or expired refresh token")

/-- TokenManager.getTokenExpiration: jwt.decode (no signature check) and
read exp; null when the string is not a JWT or carries no exp. -/
def getTokenExpiration (tok : Str) : Option Nat :=
  match tok with
  | .jwt t => t.exp
  | _ => none

/-- Every failure of verifyRefreshToken is an UnauthorizedError. -/
theorem verifyRefreshToken_error {tok : Str} {nowSec : Nat} {e : AppError}
    (h : verifyRefreshToken tok nowSec = .error e) : ∃ m, e = .unauthorized m := by
  unfold verifyRefreshToken at h
  repeat' split at h
  all_goals first
    | (injection h with h; exact ⟨_, h.symm⟩)
    | exact absurd h (by simp)

end TokenManager

/-! ## Revocation Store (Redis) -/

/-- Redis keys used by TokenBlacklist.ts: blacklist:token:digest and
blacklist:user:userId (the two templates have distinct literal prefixes,
so keys from different templates never collide). -/
inductive RedisKey where
  | tokenKey (digest : Str)
  | userKey (userId : String)
deriving DecidableEq, Repr

/-- Redis values written by TokenBlacklist.ts: the literal string
'revoked' or a decimal timestamp now.toString() (parsed back by
parseInt in getUserRevocationTimestamp). -/
inductive RedisVal where
  | revoked
  | timestamp (sec : Nat)
deriving DecidableEq, Repr

/-- One key/value entry with its absolute expiry time (seconds):
setEx key ttl value makes the key vanish ttl seconds later. -/
structure RedisEntry where
  key : RedisKey
  val : RedisVal
  expiresAt : Nat
deriving DecidableEq, Repr

/-- The revocation store state. -/
def RedisState := List RedisEntry

instance : Repr RedisState := inferInstanceAs (Repr (List RedisEntry))

instance : DecidableEq RedisState := inferInstanceAs (DecidableEq (List RedisEntry))

/-- client.setEx key ttl value at time nowSec: replaces any entry for the
key and sets its expiry to nowSec + ttl. -/
def RedisState.setEx (st : RedisState) (k : RedisKey) (ttl : Nat) (v : RedisVal)
    (nowSec : Nat) : RedisState :=
  ⟨k, v, nowSec + ttl⟩ :: st.filter (fun e => e.key ≠ k)

/-- client.get key at time nowSec: the stored value while the entry has
not yet expired, null afterwards. -/
def RedisState.get (st : RedisState) (k : RedisKey) (nowSec : Nat) : Option RedisVal :=
  match st.find? (fun e => e.key = k) with
  | some e => if nowSec < e.expiresAt then some e.val else none
  | none => none

/-- Reading back the key just written by setEx, before its TTL elapses,
yields the written value. -/
theorem RedisState.get_setEx_same (st : RedisState) (k : RedisKey) (ttl : Nat)
    (v : RedisVal) (nowSec tSec : Nat) (h : tSec < nowSec + ttl) :
    (st.setEx k ttl v nowSec).get k tSec = some v := by
  simp [RedisState.setEx, RedisState.get, List.find?_cons, h]

/-- Reading back the key just written by setEx at or after its expiry
yields null. -/
theorem RedisState.get_setEx_expired (st : RedisState) (k : RedisKey) (ttl : Nat)
    (v : RedisVal) (nowSec tSec : Nat) (h : nowSec + ttl ≤ tSec) :
    (st.setEx k ttl v nowSec).get k tSec = none := by
  simp [RedisState.setEx, RedisState.get, List.find?_cons, Nat.not_lt.mpr h]

namespace TokenBlacklist

/-- TokenBlacklist.getKey: blacklist:token:sha256hex(token). -/
def getKey (token : Str) : RedisKey := .tokenKey (.sha256 token)

/-- TokenBlacklist.add: computes the TTL from the decoded exp claim
(throwing on a falsy exp — null or 0), does nothing when the remaining
lifetime max(exp - now, 0) is zero, and otherwise stores the marker
'revoked' under the token digest for exactly that TTL.  Nat subtraction
is truncated, so exp - nowSec is Math.max(exp - now, 0). -/
def add (st : RedisState) (token : Str) (nowSec : Nat) : Except AppError RedisState :=
  match TokenManager.getTokenExpiration token with
  | none => .error (.internal "Invalid token: no expiration found")
  | some expirationTimestamp =>
    if expirationTimestamp = 0 then
      .error (.internal "Invalid token: no expiration found")
    else
      let ttl := expirationTimestamp - nowSec
      if ttl = 0 then .ok st
      else .ok (st.setEx (getKey token) ttl .revoked nowSec)

/-- TokenBlacklist.isBlacklisted: the stored value under the token digest
key is exactly the string 'revoked'. -/
def isBlacklisted (st : RedisState) (token : Str) (nowSec : Nat) : Bool :=
  st.get (getKey token) nowSec = some .revoked

/-- TokenBlacklist.revokeAllUserTokens (part_008 version): stores the
current timestamp under blacklist:user:userId for ttl seconds
(default 3600). -/
def revokeAllUserTokens (st : RedisState) (userId : String) (ttl : Nat)
    (nowSec : Nat) : RedisState :=
  st.setEx (.userKey userId) ttl (.timestamp nowSec) nowSec

/-- TokenBlacklist.getUserRevocationTimestamp (part_008 version): parseInt
of the stored value, null when absent.  A non-numeric stored value would
parse to NaN, which every consumer treats exactly like null, so it is
mapped to none. -/
def getUserRevocationTimestamp (st : RedisState) (userId : String)
    (nowSec : Nat) : Option Nat :=
  match st.get (.userKey userId) nowSec with
  | some (.timestamp n) => some n
  | _ => none

end TokenBlacklist

/-! ## Access Guard -/

/-- The {userId, email} context attached to the request by authGuard. -/
structure RequestUser where
  userId : String
  email : String
deriving DecidableEq, Repr

/-- authGuard.ts: extract the access_token cookie, verify it, check the
single-token blacklist, then the per-user revocation epoch: when an epoch
is present (truthy), a token without a truthy iat is rejected, a token
issued strictly before the epoch is rejected, and otherwise {userId,
email} is attached to the request. -/
def authGuard (redis : RedisState) (cookieAccessToken : Option Str)
    (nowSec : Nat) : Except AppError RequestUser :=
  match cookieAccessToken with
  | none => .error (.unauthorized "Access token not found")
  | some accessToken =>
    match TokenManager.verifyAccessToken accessToken nowSec with
    | .error e => .error e
    | .ok payload =>
      if TokenBlacklist.isBlacklisted redis accessToken nowSec then
        .error (.unauthorized "Token has been revoked")
      else
        let revocationTimestamp :=
          TokenBlacklist.getUserRevocationTimestamp redis payload.userId nowSec
        if truthyNat revocationTimestamp then
          if ¬ truthyNat payload.iat then
            .error (.unauthorized "Token revocation check failed: missing iat")
          else if payload.iat.getD 0 < revocationTimestamp.getD 0 then
            .error (.unauthorized "Token has been revoked by user security event")
          else .ok ⟨payload.userId, payload.email⟩
        else .ok ⟨payload.userId, payload.email⟩

/-! ## Refresh Token Ledger (RefreshTokenRepository, Prisma-backed) -/

/-- One row of the refreshToken table (prisma schema): the token column
holds the sha-256 hex digest passed through hashToken, never a raw token.
Times are milliseconds. -/
structure RefreshTokenRecord where
  id : String
  token : Str
  userId : String
  expiresAt : Nat
  revokedAt : Option Nat
  replacedBy : Option String
  gracePeriodToken : Option Str
  gracePeriodEnds : Option Nat
deriving DecidableEq, Repr

namespace RefreshTokenRepository

/-- RefreshTokenRepository.create: stores hashToken(token) = sha256(token);
prisma.create raises a unique/primary-key violation if the generated id or
the token digest already exists (id is the oracle standing for the cuid
default).  Returns the created record. -/
def create (db : List RefreshTokenRecord) (userId : String) (token : Str)
    (expiresAt : Nat) (newId : String) :
    Except AppError (List RefreshTokenRecord × RefreshTokenRecord) :=
  let tokenHash := Str.sha256 token
  if db.any (fun r => r.id = newId ∨ r.token = tokenHash) then
    .error (.internal "Unique constraint failed")
  else
    let rec_ : RefreshTokenRecord :=
      ⟨newId, tokenHash, userId, expiresAt, none, none, none, none⟩
    .ok (db ++ [rec_], rec_)

/-- RefreshTokenRepository.findByToken: findUnique on the sha-256 digest of
the presented token (the prisma include of the user relation is read at
its point of use in the service). -/
def findByToken (db : List RefreshTokenRecord) (token : Str) :
    Option RefreshTokenRecord :=
  db.find? (fun r => r.token = Str.sha256 token)

/-- RefreshTokenRepository.revoke: prisma.update stamping revokedAt := now
and replacedBy := replacedBy ?? null; prisma.update throws P2025 when no
row has the id. -/
def revoke (db : List RefreshTokenRecord) (tokenId : String)
    (replacedBy : Option String) (nowMs : Nat) :
    Except AppError (List RefreshTokenRecord × RefreshTokenRecord) :=
  match db.find? (fun r => r.id = tokenId) with
  | none => .error (.internal "Record to update not found")
  | some r =>
    let r' := { r with revokedAt := some nowMs, replacedBy := replacedBy }
    .ok (db.map (fun x => if x.id = tokenId then
      { x with revokedAt := some nowMs, replacedBy := replacedBy } else x), r')

/-- RefreshTokenRepository.setGracePeriod: prisma.update attaching the
digest of the newly minted token and the absolute grace deadline
now + gracePeriodSeconds * 1000 to the old record. -/
def setGracePeriod (db : List RefreshTokenRecord) (tokenId : String)
    (newToken : Str) (gracePeriodSeconds : Nat) (nowMs : Nat) :
    Except AppError (List RefreshTokenRecord × RefreshTokenRecord) :=
  let gracePeriodEnds := nowMs + gracePeriodSeconds * 1000
  match db.find? (fun r => r.id = tokenId) with
  | none => .error (.internal "Record to update not found")
  | some r =>
    let r' := { r with gracePeriodToken := some (Str.sha256 newToken)
                     , gracePeriodEnds := some gracePeriodEnds }
    .ok (db.map (fun x => if x.id = tokenId then
      { x with gracePeriodToken := some (Str.sha256 newToken)
             , gracePeriodEnds := some gracePeriodEnds } else x), r')

/-- RefreshTokenRepository.revokeAllByUserId: prisma.updateMany stamping
revokedAt on every non-revoked record of the user. -/
def revokeAllByUserId (db : List RefreshTokenRecord) (userId : String)
    (nowMs : Nat) : List RefreshTokenRecord :=
  db.map (fun r => if r.userId = userId ∧ r.revokedAt = none then
    { r with revokedAt := some nowMs } else r)

end RefreshTokenRepository

/-! ## Identity store (UserRepository) and credential verifier -/

/-- One row of the user table. -/
structure User where
  id : String
  email : String
  password : String
  name : String
  createdAt : Nat
deriving DecidableEq, Repr

namespace HashProvider

/-- HashProvider.hash (argon2id), modelled symbolically as an injective
tagging of the plaintext; only determinism and verifier soundness are
used. -/
def hash (plaintext : String) : String := "argon2id$" ++ plaintext

/-- HashProvider.compare (argon2.verify): the stored hash verifies exactly
the plaintext it was derived from. -/
def compare (plaintext stored : String) : Bool := stored = hash plaintext

end HashProvider

/-- JavaScript String.prototype.toLowerCase as used on emails, embedded as
a structurally recursive character map (String.toLower itself is not
kernel-reducible). -/
def strToLower (s : String) : String := ⟨s.data.map Char.toLower⟩

namespace UserRepository

/-- UserRepository.findByEmail (part_002): findUnique on the lowercased
argument against the stored (already lowercased) email column. -/
def findByEmail (users : List User) (email : String) : Option User :=
  users.find? (fun u => u.email = strToLower email)

/-- UserRepository.findById (part_002). -/
def findById (users : List User) (id : String) : Option User :=
  users.find? (fun u => u.id = id)

/-- UserRepository.create (part_002): stores the email lowercased; prisma
raises a unique violation on a duplicate id or email. -/
def create (users : List User) (email password name : String)
    (newId : String) (nowMs : Nat) : Except AppError (List User × User) :=
  if users.any (fun u => u.id = newId ∨ u.email = strToLower email) then
    .error (.internal "Unique constraint failed")
  else
    let u : User := ⟨newId, strToLower email, password, name, nowMs⟩
    .ok (users ++ [u], u)

/-- UserRepository.updatePassword (part_002). -/
def updatePassword (users : List User) (userId newPasswordHash : String) :
    List User :=
  users.map (fun u => if u.id = userId then { u with password := newPasswordHash } else u)

end UserRepository

/-! ## Token Lifecycle Engine (AuthService) -/

namespace AuthService

/-- Result of AuthService.login. -/
structure LoginResult where
  userId : String
  userEmail : String
  userName : String
  accessToken : Str
  refreshToken : Str
  rememberMe : Bool
deriving DecidableEq, Repr

/-- Result of AuthService.refresh on success. -/
structure RefreshResult where
  accessToken : Str
  refreshToken : Str
deriving DecidableEq, Repr

/-- The setTimeout scheduled by refresh: revoke(tokenId, replacedBy) firing
REFRESH_GRACE_PERIOD_SECONDS later. -/
structure DeferredRevoke where
  tokenId : String
  replacedBy : String
  fireAtMs : Nat
deriving DecidableEq, Repr

/-- Full outcome of AuthService.refresh: the (possibly mutated) ledger and
store, the scheduled deferred revocation if any, and the returned pair or
thrown error. -/
structure RefreshOutcome where
  db : List RefreshTokenRecord
  redis : RedisState
  deferred : Option DeferredRevoke
  result : Except AppError RefreshResult
deriving Repr

/-- AuthService.register: conflict on an existing email, then hash and
create. -/
def register (users : List User) (email password name : String)
    (newId : String) (nowMs : Nat) : Except AppError (List User × User) :=
  match UserRepository.findByEmail users email with
  | some _ => .error (.conflict "Email already registered")
  | none =>
    let passwordHash := HashProvider.hash password
    UserRepository.create users email passwordHash name newId nowMs

/-- AuthService.calculateExpiration on an already-parsed (value, unit)
duration (the source regex-parses strings of the shape 30d / 7d / 12h /
15m; both env values match the regex, so only the parsed pair is
modelled). -/
def calculateExpiration (duration : Nat × Char) (nowMs : Nat) : Except AppError Nat :=
  let value := duration.1
  match duration.2 with
  | 'd' => .ok (nowMs + value * 24 * 60 * 60 * 1000)
  | 'h' => .ok (nowMs + value * 60 * 60 * 1000)
  | 'm' => .ok (nowMs + value * 60 * 1000)
  | _ => .error (.internal "Invalid duration unit")

/-- AuthService.login.  Oracles: uuid is the crypto.randomUUID() value the
record is keyed by, jti the access token's random jwtid, newRecordId the
id prisma generates for the ledger row.  Note the ledger record is created
from the random uuid while the returned refresh token is a fresh JWT. -/
def login (users : List User) (db : List RefreshTokenRecord)
    (email password : String) (rememberMe : Bool) (nowMs : Nat)
    (uuid jti newRecordId : String) :
    Except AppError (List RefreshTokenRecord × LoginResult) :=
  match UserRepository.findByEmail users email with
  | none => .error (.unauthorized "Invalid credentials")
  | some user =>
    if HashProvider.compare password user.password then
      let accessToken := TokenManager.generateAccessToken user.id user.email (nowMs / 1000) jti
      let refreshExpiresIn := if rememberMe then (30, 'd') else Env.JWT_REFRESH_EXPIRES_IN
      match calculateExpiration refreshExpiresIn nowMs with
      | .error e => .error e
      | .ok expiresAt =>
        match RefreshTokenRepository.create db user.id (.raw uuid) expiresAt newRecordId with
        | .error e => .error e
        | .ok (db', refreshTokenRecord) =>
          let refreshToken :=
            TokenManager.generateRefreshToken user.id refreshTokenRecord.id (nowMs / 1000)
          .ok (db', { userId := user.id, userEmail := user.email, userName := user.name
                    , accessToken := accessToken, refreshToken := refreshToken
                    , rememberMe := rememberMe })
    else .error (.unauthorized "Invalid credentials")

/-- The AUTOMATIC ROTATION tail of AuthService.refresh (reached when no
active grace period applies): mint a new pair, persist a new record with a
fixed 7-day expiry, attach the new token's digest to the old record as its
grace-period token, and schedule the old record's revocation for after the
grace window. -/
def rotate (users : List User) (db : List RefreshTokenRecord) (redis : RedisState)
    (tokenRecord : RefreshTokenRecord) (nowMs : Nat)
    (uuid jti newRecordId : String) : RefreshOutcome :=
  match UserRepository.findById users tokenRecord.userId with
  | none => ⟨db, redis, none, .error (.internal "user relation missing")⟩
  | some u =>
    let newAccessToken := TokenManager.generateAccessToken u.id u.email (nowMs / 1000) jti
    match RefreshTokenRepository.create db tokenRecord.userId (.raw uuid)
        (nowMs + 7 * 24 * 60 * 60 * 1000) newRecordId with
    | .error e => ⟨db, redis, none, .error e⟩
    | .ok (db1, newRefreshTokenRecord) =>
      let newRefreshToken :=
        TokenManager.generateRefreshToken u.id newRefreshTokenRecord.id (nowMs / 1000)
      match RefreshTokenRepository.setGracePeriod db1 tokenRecord.id newRefreshToken
          Env.REFRESH_GRACE_PERIOD_SECONDS nowMs with
      | .error e => ⟨db1, redis, none, .error e⟩
      | .ok (db2, _) =>
        ⟨db2, redis
        , some ⟨tokenRecord.id, newRefreshTokenRecord.id
               , nowMs + Env.REFRESH_GRACE_PERIOD_SECONDS * 1000⟩
        , .ok ⟨newAccessToken, newRefreshToken⟩⟩

/-- AuthService.refresh: verify the JWT, look the record up by digest,
reuse-detect on a revoked record (revoking the whole family and raising the
user epoch before throwing), reject an expired record, serve an active
grace period by re-minting only the access token and returning the stored
gracePeriodToken value, and otherwise rotate. -/
def refresh (users : List User) (db : List RefreshTokenRecord) (redis : RedisState)
    (refreshToken : Str) (nowMs : Nat) (uuid jti newRecordId : String) :
    RefreshOutcome :=
  match TokenManager.verifyRefreshToken refreshToken (nowMs / 1000) with
  | .error e => ⟨db, redis, none, .error e⟩
  | .ok payload =>
    match RefreshTokenRepository.findByToken db refreshToken with
    | none => ⟨db, redis, none, .error (.unauthorized "Invalid refresh token")⟩
    | some tokenRecord =>
      if tokenRecord.revokedAt.isSome then
        let db' := RefreshTokenRepository.revokeAllByUserId db payload.userId nowMs
        let redis' := TokenBlacklist.revokeAllUserTokens redis payload.userId 3600 (nowMs / 1000)
        ⟨db', redis', none, .error (.unauthorized "Token reuse detected. All sessions revoked.")⟩
      else if tokenRecord.expiresAt < nowMs then
        ⟨db, redis, none, .error (.unauthorized "Refresh token expired")⟩
      else
        match tokenRecord.gracePeriodToken, tokenRecord.gracePeriodEnds with
        | some gracePeriodToken, some gracePeriodEnds =>
          if nowMs < gracePeriodEnds then
            match UserRepository.findById users tokenRecord.userId with
            | none => ⟨db, redis, none, .error (.internal "user relation missing")⟩
            | some u =>
              let gracePeriodAccessToken :=
                TokenManager.generateAccessToken u.id u.email (nowMs / 1000) jti
              ⟨db, redis, none, .ok ⟨gracePeriodAccessToken, gracePeriodToken⟩⟩
          else rotate users db redis tokenRecord nowMs uuid jti newRecordId
        | _, _ => rotate users db redis tokenRecord nowMs uuid jti newRecordId

/-- The deferred action scheduled by refresh, as run by the volatile timer:
it awaits revoke and nothing handles a rejection (the error reaches no
caller; the ledger is unchanged in that case). -/
def runDeferredRevocation (db : List RefreshTokenRecord) (d : DeferredRevoke)
    (nowMs : Nat) : List RefreshTokenRecord × Option AppError :=
  match RefreshTokenRepository.revoke db d.tokenId (some d.replacedBy) nowMs with
  | .ok (db', _) => (db', none)
  | .error e => (db, some e)

/-- AuthService.updatePassword: BadRequest on a missing user, Unauthorized
on a wrong current password, then persist the new hash, bulk-revoke the
ledger and raise the user revocation epoch for 3600 seconds. -/
def updatePassword (users : List User) (db : List RefreshTokenRecord)
    (redis : RedisState) (userId currentPassword newPassword : String)
    (nowMs : Nat) :
    Except AppError (List User × List RefreshTokenRecord × RedisState) :=
  match UserRepository.findById users userId with
  | none => .error (.badRequest "User not found")
  | some user =>
    if HashProvider.compare currentPassword user.password then
      let newPasswordHash := HashProvider.hash newPassword
      let users' := UserRepository.updatePassword users userId newPasswordHash
      let db' := RefreshTokenRepository.revokeAllByUserId db userId nowMs
      let redis' := TokenBlacklist.revokeAllUserTokens redis userId 3600 (nowMs / 1000)
      .ok (users', db', redis')
    else .error (.unauthorized "Current password is incorrect")

end AuthService

/-! ## Fixtures shared by the concrete theorems -/

/-- A registered user (password hash as stored by register). -/
def aliceUser : User := ⟨"u1", "a@x.com", HashProvider.hash "pw", "Alice", 0⟩

/-- The access token minted by the concrete login below. -/
def c1AccessToken : Str := TokenManager.generateAccessToken "u1" "a@x.com" 1000 "jti-1"

/-- The refresh token (a JWT over record id rec-1) returned by the
concrete login below. -/
def c1RefreshToken : Str := TokenManager.generateRefreshToken "u1" "rec-1" 1000

/-- The ledger record persisted by the concrete login below: keyed by the
digest of the random UUID, 7-day expiry (rememberMe = false). -/
def c1Rec : RefreshTokenRecord :=
  ⟨"rec-1", .sha256 (.raw "uuid-1"), "u1", 605800000, none, none, none, none⟩

/-! ## C1 -/

/-- C1: the spec claims that findByToken applied to the refresh token
returned by login yields the record login persisted.  On the code this
fails: login keys the persisted record by the digest of a fresh
crypto.randomUUID() value, not of the returned JWT, so findByToken of the
returned token finds nothing and every subsequent refresh fails
Unauthorized — contradicting the repository's own integration test
"should refresh tokens successfully".  This theorem evaluates the code at
the failing input: a successful login on an empty ledger whose returned
refresh token is unknown to the ledger, while the random UUID is the key
of the persisted record. -/
theorem c1_refresh_lookup_misses_login_record :
    AuthService.login [aliceUser] [] "a@x.com" "pw" false 1000000 "uuid-1" "jti-1" "rec-1"
        = .ok ([c1Rec], ⟨"u1", "a@x.com", "Alice", c1AccessToken, c1RefreshToken, false⟩)
      ∧ RefreshTokenRepository.findByToken [c1Rec] c1RefreshToken = none
      ∧ RefreshTokenRepository.findByToken [c1Rec] (.raw "uuid-1") = some c1Rec
      ∧ (AuthService.refresh [aliceUser] [c1Rec] [] c1RefreshToken 1001000
            "uuid-2" "jti-2" "rec-2").result
          = .error (.unauthorized "Invalid refresh token") :=
  ⟨rfl, rfl, rfl, rfl⟩

/-! ## C6 -/

/-- The ledger record persisted by the concrete rememberMe login below:
its expiresAt is 30 days out. -/
def c6Rec : RefreshTokenRecord :=
  ⟨"rec-1", .sha256 (.raw "uuid-1"), "u1", 1000000 + 30 * 24 * 60 * 60 * 1000,
   none, none, none, none⟩

/-- C6: the spec claims that with rememberMe the issued refresh token
stays redeemable for 30 days, both the record's expiresAt and the signed
token's own expiry lying 30 days out.  On the code the ledger record does
expire 30 days out, but generateRefreshToken always signs with the fixed
env.JWT_REFRESH_EXPIRES_IN = 7d lifetime, so the signed token itself dies
after 7 days: presenting it 8 days after issuance fails verification for
expiry reasons, contradicting the route documentation ("Se true, refresh
token expira em 30 dias (em vez de 7)").  This theorem evaluates the code
at the failing input. -/
theorem c6_rememberMe_refresh_jwt_expires_in_7_days :
    AuthService.login [aliceUser] [] "a@x.com" "pw" true 1000000 "uuid-1" "jti-1" "rec-1"
        = .ok ([c6Rec], ⟨"u1", "a@x.com", "Alice", c1AccessToken, c1RefreshToken, true⟩)
      ∧ c6Rec.expiresAt = 1000000 + 30 * 24 * 60 * 60 * 1000
      ∧ TokenManager.getTokenExpiration c1RefreshToken
          = some (1000000 / 1000 + 7 * 24 * 60 * 60)
      ∧ TokenManager.verifyRefreshToken c1RefreshToken
            ((1000000 + 8 * 24 * 60 * 60 * 1000) / 1000)
          = .error (.unauthorized "Invalid or expired refresh token") :=
  ⟨rfl, rfl, rfl, rfl⟩

/-! ## C5 -/

/-- An access-class token whose decoded exp claim is exactly 0 (already
expired at any positive time); constructible by any client since
blacklisting decodes without signature verification. -/
def c5ZeroExpToken : Str :=
  .jwt { claims := .access "u1" "a@x.com", iat := some 0, exp := some 0
       , iss := "secure-auth-poc", aud := "api"
       , secret := Env.JWT_ACCESS_SECRET, jti := none }

/-- An access-class token expiring at second 100 (used by the C5 witness). -/
def c5Tok100 : Str :=
  .jwt { claims := .access "u1" "a@x.com", iat := some 10, exp := some 100
       , iss := "secure-auth-poc", aud := "api"
       , secret := Env.JWT_ACCESS_SECRET, jti := none }

/-- An access-class token expiring at second 200 (used by the C5 witness
for the already-expired no-op branch). -/
def c5Tok200 : Str :=
  .jwt { claims := .access "u1" "a@x.com", iat := some 10, exp := some 200
       , iss := "secure-auth-poc", aud := "api"
       , secret := Env.JWT_ACCESS_SECRET, jti := none }

/-- C5 counterexample: the claim says blacklisting an already-expired token
never throws, for any already-expired token.  A token whose decoded expiry
claim is exactly 0 is already expired at time 5, yet TokenBlacklist.add
throws (the falsy check on the decoded exp treats 0 like a missing
expiry), so the claim as stated is false. -/
theorem c5_add_throws_on_zero_expiry_expired_token :
    TokenManager.getTokenExpiration c5ZeroExpToken = some 0
    ∧ TokenBlacklist.add [] c5ZeroExpToken 5
        = .error (.internal "Invalid token: no expiration found") :=
  ⟨rfl, rfl⟩

/-- C5 amended: blacklisting a token expiring N seconds in the future
(N > 0) stores the marker for exactly the remaining lifetime N —
isBlacklisted is true immediately and the marker is gone at its expiry —
and blacklisting an already-expired token whose expiry claim is nonzero is
a no-op that does not throw (an expiry claim of exactly 0 instead throws,
as the counterexample shows). -/
theorem c5_blacklist_dynamic_ttl (st : RedisState) (tok : Str)
    (nowSec N exp : Nat)
    (hexp : TokenManager.getTokenExpiration tok = some exp) :
    (exp = nowSec + N → 0 < N →
        TokenBlacklist.add st tok nowSec
            = .ok (st.setEx (TokenBlacklist.getKey tok) N .revoked nowSec)
        ∧ TokenBlacklist.isBlacklisted
            (st.setEx (TokenBlacklist.getKey tok) N .revoked nowSec) tok nowSec = true
        ∧ (st.setEx (TokenBlacklist.getKey tok) N .revoked nowSec).get
            (TokenBlacklist.getKey tok) (nowSec + N) = none)
  ∧ (0 < exp → exp ≤ nowSec → TokenBlacklist.add st tok nowSec = .ok st) := by
  constructor
  · rintro rfl hN
    refine ⟨?_, ?_, ?_⟩
    · simp [TokenBlacklist.add, hexp, Nat.add_sub_cancel_left]
      rw [if_neg (by omega), if_neg (by omega)]
    · simp [TokenBlacklist.isBlacklisted,
        RedisState.get_setEx_same st _ N _ nowSec nowSec (by omega)]
    · exact RedisState.get_setEx_expired st _ N _ nowSec _ (Nat.le_refl _)
  · intro hpos hpast
    simp [TokenBlacklist.add, hexp, Nat.sub_eq_zero_of_le hpast]
    omega

/-- C5 witness: concrete instantiation of the amended theorem — a token
with 60 seconds of life left at second 40 is stored for TTL 60 and reads
back as blacklisted, and a token that expired at second 200 presented at
second 300 is a no-op. -/
theorem c5_blacklist_dynamic_ttl_witness :
    TokenBlacklist.add [] c5Tok100 40
        = .ok (RedisState.setEx [] (TokenBlacklist.getKey c5Tok100) 60 .revoked 40)
    ∧ TokenBlacklist.isBlacklisted
        (RedisState.setEx [] (TokenBlacklist.getKey c5Tok100) 60 .revoked 40)
        c5Tok100 40 = true
    ∧ TokenBlacklist.add [] c5Tok200 300 = .ok [] := by
  have h1 := (c5_blacklist_dynamic_ttl [] c5Tok100 40 60 100 rfl).1 rfl (by decide)
  have h2 := (c5_blacklist_dynamic_ttl [] c5Tok200 300 0 200 rfl).2 (by decide) (by decide)
  exact ⟨h1.1, h1.2.1, h2⟩

/-! ## C7 -/

/-- C7 counterexample: the claim says the deferred revocation raises no
error when the record no longer exists by the time it runs.  On the code
revoke is prisma.update, which throws P2025 on a missing row: revoking a
record id absent from the ledger errors, and the deferred action's
underlying call errors identically (the rejection is merely unhandled). -/
theorem c7_deferred_revoke_errors_on_missing_record :
    RefreshTokenRepository.revoke [] "rec-1" (some "rec-2") 1010000
        = .error (.internal "Record to update not found")
    ∧ (AuthService.runDeferredRevocation [] ⟨"rec-1", "rec-2", 1010000⟩ 1010000).2
        = some (.internal "Record to update not found") :=
  ⟨rfl, rfl⟩

/-- C7 amended: revoking an already-revoked record is not an error and
leaves the record revoked (re-stamping revokedAt and replacedBy), and the
deferred revocation raises no error when the record is already revoked;
but when the record no longer exists, the underlying revoke call raises a
record-not-found error (unobserved by any caller, since the timer
callback's rejection is unhandled). -/
theorem c7_revoke_tolerates_revoked_errors_on_missing
    (db : List RefreshTokenRecord) (r : RefreshTokenRecord) (rep : Option String)
    (nowMs : Nat)
    (hfind : db.find? (fun x => x.id = r.id) = some r)
    (hrev : r.revokedAt.isSome) :
    (∃ db', RefreshTokenRepository.revoke db r.id rep nowMs
        = .ok (db', { r with revokedAt := some nowMs, replacedBy := rep })
      ∧ ∀ x ∈ db', x.id = r.id → x.revokedAt = some nowMs)
  ∧ (∀ newId fireAt,
      (AuthService.runDeferredRevocation db ⟨r.id, newId, fireAt⟩ nowMs).2 = none)
  ∧ (∀ db₂ : List RefreshTokenRecord, ∀ tid newId : String, ∀ fireAt nowMs₂ : Nat,
      db₂.find? (fun x => x.id = tid) = none →
        RefreshTokenRepository.revoke db₂ tid (some newId) nowMs₂
          = .error (.internal "Record to update not found")
        ∧ (AuthService.runDeferredRevocation db₂ ⟨tid, newId, fireAt⟩ nowMs₂).2
          = some (.internal "Record to update not found")) := by
  refine ⟨?_, ?_, ?_⟩
  · refine ⟨db.map (fun x => if x.id = r.id then
        { x with revokedAt := some nowMs, replacedBy := rep } else x), ?_, ?_⟩
    · simp [RefreshTokenRepository.revoke, hfind]
    · intro x hx hid
      rcases List.mem_map.mp hx with ⟨y, hy, hfy⟩
      by_cases hyid : y.id = r.id
      · rw [if_pos hyid] at hfy
        rw [← hfy]
      · rw [if_neg hyid] at hfy
        rw [← hfy] at hid
        exact absurd hid hyid
  · intro newId fireAt
    simp [AuthService.runDeferredRevocation, RefreshTokenRepository.revoke, hfind]
  · intro db₂ tid newId fireAt nowMs₂ hnone
    constructor
    · simp [RefreshTokenRepository.revoke, hnone]
    · simp [AuthService.runDeferredRevocation, RefreshTokenRepository.revoke, hnone]

/-- A revoked ledger record used by the C7 witness. -/
def c7RevokedRec : RefreshTokenRecord :=
  ⟨"rec-0", .sha256 (.raw "uuid-0"), "u1", 2000000, some 900000, none, none, none⟩

/-- C7 witness: concrete instantiation of the amended theorem on a
one-record ledger whose record is already revoked. -/
theorem c7_revoke_tolerates_revoked_witness :
    (∃ db', RefreshTokenRepository.revoke [c7RevokedRec] "rec-0" (some "rec-1") 1010000
        = .ok (db', { c7RevokedRec with revokedAt := some 1010000
                                      , replacedBy := some "rec-1" })
      ∧ ∀ x ∈ db', x.id = "rec-0" → x.revokedAt = some 1010000)
    ∧ RefreshTokenRepository.revoke [] "rec-9" (some "rec-1") 7
        = .error (.internal "Record to update not found") := by
  have h := c7_revoke_tolerates_revoked_errors_on_missing
    [c7RevokedRec] c7RevokedRec (some "rec-1") 1010000 rfl rfl
  exact ⟨h.1, (h.2.2 [] "rec-9" "rec-1" 0 7 rfl).1⟩

/-! ## C9 -/

/-- C9: a login attempt whose email misses the identity store and a login
attempt whose email hits but whose password does not verify both fail with
an UnauthorizedError carrying the identical message "Invalid credentials",
so the caller cannot distinguish which check failed. -/
theorem c9_login_failures_indistinguishable
    (users₁ : List User) (db₁ : List RefreshTokenRecord) (e₁ p₁ : String)
    (rm₁ : Bool) (now₁ : Nat) (uu₁ jt₁ rid₁ : String)
    (users₂ : List User) (db₂ : List RefreshTokenRecord) (e₂ p₂ : String)
    (rm₂ : Bool) (now₂ : Nat) (uu₂ jt₂ rid₂ : String) (user : User)
    (hmiss : UserRepository.findByEmail users₁ e₁ = none)
    (hhit : UserRepository.findByEmail users₂ e₂ = some user)
    (hbad : HashProvider.compare p₂ user.password = false) :
    AuthService.login users₁ db₁ e₁ p₁ rm₁ now₁ uu₁ jt₁ rid₁
        = .error (.unauthorized "Invalid credentials")
    ∧ AuthService.login users₂ db₂ e₂ p₂ rm₂ now₂ uu₂ jt₂ rid₂
        = .error (.unauthorized "Invalid credentials") := by
  constructor
  · simp [AuthService.login, hmiss]
  · simp [AuthService.login, hhit, hbad]

/-- C9 witness: a miss on the empty store and a wrong password against the
registered user produce the identical error. -/
theorem c9_login_failures_indistinguishable_witness :
    AuthService.login [] [] "a@x.com" "pw" false 0 "u" "j" "r"
        = .error (.unauthorized "Invalid credentials")
    ∧ AuthService.login [aliceUser] [] "a@x.com" "wrong" false 0 "u" "j" "r"
        = .error (.unauthorized "Invalid credentials") :=
  c9_login_failures_indistinguishable
    [] [] "a@x.com" "pw" false 0 "u" "j" "r"
    [aliceUser] [] "a@x.com" "wrong" false 0 "u" "j" "r" aliceUser
    rfl rfl (by decide)

/-! ## C10 -/

/-- C10: register stores the email lowercased and every findByEmail lookup
lowercases its argument, so after a successful registration under email e₁
any login under an email e₂ that lowercases identically succeeds (on a
fresh ledger) as the registered user, and a second registration under e₂
fails with Conflict. -/
theorem c10_register_login_case_insensitive
    (users users' : List User) (u : User)
    (e₁ e₂ pw name nid : String) (nowMs : Nat)
    (hreg : AuthService.register users e₁ pw name nid nowMs = .ok (users', u))
    (hcase : strToLower e₂ = strToLower e₁) :
    u.email = strToLower e₁
  ∧ (∀ rm : Bool, ∀ nowL : Nat, ∀ uu jt rid : String,
      AuthService.login users' [] e₂ pw rm nowL uu jt rid
        = .ok ([{ id := rid, token := .sha256 (.raw uu), userId := u.id
                , expiresAt := nowL + (if rm then 30 else 7) * 24 * 60 * 60 * 1000
                , revokedAt := none, replacedBy := none
                , gracePeriodToken := none, gracePeriodEnds := none }],
              { userId := u.id, userEmail := u.email, userName := u.name
              , accessToken := TokenManager.generateAccessToken u.id u.email (nowL / 1000) jt
              , refreshToken := TokenManager.generateRefreshToken u.id rid (nowL / 1000)
              , rememberMe := rm }))
  ∧ (∀ pw₂ name₂ nid₂ : String, ∀ now₂ : Nat,
      AuthService.register users' e₂ pw₂ name₂ nid₂ now₂
        = .error (.conflict "Email already registered")) := by
  unfold AuthService.register at hreg
  cases hfind : UserRepository.findByEmail users e₁ with
  | some w => rw [hfind] at hreg; exact absurd hreg (by simp)
  | none =>
    rw [hfind] at hreg
    unfold UserRepository.create at hreg
    by_cases hany : users.any (fun x => x.id = nid ∨ x.email = strToLower e₁)
    · rw [if_pos hany] at hreg
      exact absurd hreg (by simp)
    · rw [if_neg hany] at hreg
      injection hreg with hreg
      injection hreg with husers hu
      subst hu
      subst husers
      have hmail : UserRepository.findByEmail
          (users ++ [⟨nid, strToLower e₁, HashProvider.hash pw, name, nowMs⟩]) e₂
          = some ⟨nid, strToLower e₁, HashProvider.hash pw, name, nowMs⟩ := by
        unfold UserRepository.findByEmail
        rw [hcase, List.find?_append]
        have hnone : users.find? (fun x => x.email = strToLower e₁) = none := by
          rw [List.find?_eq_none]
          intro x hx
          simp only [List.any_eq_true, not_exists, not_and] at hany
          have := hany x hx
          simp only [decide_eq_true_eq, not_or] at this ⊢
          exact fun hc => this.2 hc
        rw [hnone]
        simp [List.find?]
      refine ⟨rfl, ?_, ?_⟩
      · intro rm nowL uu jt rid
        have hcmp : HashProvider.compare pw (HashProvider.hash pw) = true := by
          simp [HashProvider.compare]
        unfold AuthService.login
        rw [hmail]
        simp only [hcmp, if_true]
        cases rm <;> rfl
      · intro pw₂ name₂ nid₂ now₂
        unfold AuthService.register
        rw [hmail]

/-- C10 witness: registering A@X.com then logging in as a@x.com succeeds
as the same user, and registering a@x.com again conflicts. -/
theorem c10_register_login_case_insensitive_witness :
    ∃ users' u,
      AuthService.register [] "A@X.com" "pw" "Alice" "u1" 0 = .ok (users', u)
      ∧ u.email = "a@x.com"
      ∧ (AuthService.login users' [] "a@x.com" "pw" false 1000000 "uuid-1" "jti-1" "rec-1").isOk
      ∧ AuthService.register users' "a@x.com" "pw2" "Mallory" "u2" 5
          = .error (.conflict "Email already registered") := by
  refine ⟨[⟨"u1", "a@x.com", HashProvider.hash "pw", "Alice", 0⟩],
          ⟨"u1", "a@x.com", HashProvider.hash "pw", "Alice", 0⟩, rfl, ?_, ?_, ?_⟩
  · have h := c10_register_login_case_insensitive []
      [⟨"u1", "a@x.com", HashProvider.hash "pw", "Alice", 0⟩]
      ⟨"u1", "a@x.com", HashProvider.hash "pw", "Alice", 0⟩
      "A@X.com" "a@x.com" "pw" "Alice" "u1" 0 rfl (by decide)
    exact h.1
  · have h := c10_register_login_case_insensitive []
      [⟨"u1", "a@x.com", HashProvider.hash "pw", "Alice", 0⟩]
      ⟨"u1", "a@x.com", HashProvider.hash "pw", "Alice", 0⟩
      "A@X.com" "a@x.com" "pw" "Alice" "u1" 0 rfl (by decide)
    rw [h.2.1 false 1000000 "uuid-1" "jti-1" "rec-1"]
    rfl
  · have h := c10_register_login_case_insensitive []
      [⟨"u1", "a@x.com", HashProvider.hash "pw", "Alice", 0⟩]
      ⟨"u1", "a@x.com", HashProvider.hash "pw", "Alice", 0⟩
      "A@X.com" "a@x.com" "pw" "Alice" "u1" 0 rfl (by decide)
    exact h.2.2 "pw2" "Mallory" "u2" 5

/-! ## C2 -/

/-- A valid refresh JWT bound to ledger record rec-0 (the old token
presented for rotation and then again inside the grace window). -/
def c2Tok0 : Str := TokenManager.generateRefreshToken "u1" "rec-0" 1000

/-- The active ledger record for c2Tok0 (keyed by its digest, far-future
expiry, no grace attachment yet). -/
def c2Rec0 : RefreshTokenRecord :=
  ⟨"rec-0", .sha256 c2Tok0, "u1", 2000000000, none, none, none, none⟩

/-- The refresh token minted by the rotation that sets the grace period on
rec-0. -/
def c2MintedToken : Str := TokenManager.generateRefreshToken "u1" "rec-A" 1000

/-- The rotation call: presenting c2Tok0 at time 1000000 rotates, minting
c2MintedToken and attaching its digest to rec-0 as the grace-period token
until 1010000. -/
def c2R1 : AuthService.RefreshOutcome :=
  AuthService.refresh [aliceUser] [c2Rec0] [] c2Tok0 1000000 "uuid-A" "jti-A" "rec-A"

/-- C2 counterexample: the claim says both in-grace refresh calls return
refresh strings byte-identical to each other and to the token minted by
the rotation that set the grace period.  On the code the two in-grace
calls do agree with each other, but what they return is the stored
gracePeriodToken column — the sha-256 hex digest of the minted token
(setGracePeriod stores hashToken(newToken)) — which is never byte-identical
to the minted token itself, so the caller receives an unusable digest. -/
theorem c2_grace_returns_digest_not_minted_token :
    c2R1.result
        = .ok ⟨TokenManager.generateAccessToken "u1" "a@x.com" 1000 "jti-A", c2MintedToken⟩
    ∧ (AuthService.refresh [aliceUser] c2R1.db [] c2Tok0 1005000 "uuid-B" "jti-B" "rec-B").result
        = .ok ⟨TokenManager.generateAccessToken "u1" "a@x.com" 1005 "jti-B",
               .sha256 c2MintedToken⟩
    ∧ (AuthService.refresh [aliceUser] c2R1.db [] c2Tok0 1007000 "uuid-C" "jti-C" "rec-C").result
        = .ok ⟨TokenManager.generateAccessToken "u1" "a@x.com" 1007 "jti-C",
               .sha256 c2MintedToken⟩
    ∧ Str.sha256 c2MintedToken ≠ c2MintedToken :=
  ⟨rfl, rfl, rfl, Str.sha256_ne _⟩

/-- C2 amended: for a ledger record that is non-revoked, non-expired and
carries a grace attachment ending in the future, any two refresh calls
with the old token inside the window leave all state unchanged and both
return the same stored grace-period string g; g, being the digest
sha256(X) of the token X minted by the rotation that set the grace period,
is not byte-identical to X; and the access tokens of the two calls may
differ (they do whenever their jwtids differ). -/
theorem c2_grace_idempotent_returns_stored_digest
    (users : List User) (db : List RefreshTokenRecord) (redis : RedisState)
    (tok : Str) (rec : RefreshTokenRecord) (u : User) (g : Str)
    (gEnd now₁ now₂ : Nat) (p₁ p₂ : TokenManager.RefreshTokenPayload)
    (uu₁ jt₁ rid₁ uu₂ jt₂ rid₂ : String)
    (hfind : RefreshTokenRepository.findByToken db tok = some rec)
    (hrev : rec.revokedAt = none)
    (hg : rec.gracePeriodToken = some g)
    (hge : rec.gracePeriodEnds = some gEnd)
    (hu : UserRepository.findById users rec.userId = some u)
    (hv₁ : TokenManager.verifyRefreshToken tok (now₁ / 1000) = .ok p₁)
    (hv₂ : TokenManager.verifyRefreshToken tok (now₂ / 1000) = .ok p₂)
    (hexp₁ : ¬ rec.expiresAt < now₁) (hexp₂ : ¬ rec.expiresAt < now₂)
    (hin₁ : now₁ < gEnd) (hin₂ : now₂ < gEnd) :
    AuthService.refresh users db redis tok now₁ uu₁ jt₁ rid₁
      = ⟨db, redis, none,
         .ok ⟨TokenManager.generateAccessToken u.id u.email (now₁ / 1000) jt₁, g⟩⟩
    ∧ AuthService.refresh users db redis tok now₂ uu₂ jt₂ rid₂
      = ⟨db, redis, none,
         .ok ⟨TokenManager.generateAccessToken u.id u.email (now₂ / 1000) jt₂, g⟩⟩
    ∧ (∀ X, g = Str.sha256 X → g ≠ X)
    ∧ (jt₁ ≠ jt₂ →
        TokenManager.generateAccessToken u.id u.email (now₁ / 1000) jt₁
          ≠ TokenManager.generateAccessToken u.id u.email (now₂ / 1000) jt₂) := by
  refine ⟨?_, ?_, ?_, ?_⟩
  · unfold AuthService.refresh
    rw [hv₁, hfind]
    simp [hrev, hexp₁, hg, hge, hin₁, hu]
  · unfold AuthService.refresh
    rw [hv₂, hfind]
    simp [hrev, hexp₂, hg, hge, hin₂, hu]
  · rintro X rfl
    exact Str.sha256_ne X
  · intro hne
    simp [TokenManager.generateAccessToken]
    intro _ h
    exact absurd h hne

/-- The graced old record as it stands inside the grace window (the state
c2R1 leaves rec-0 in). -/
def c2GracedRec : RefreshTokenRecord :=
  ⟨"rec-0", .sha256 c2Tok0, "u1", 2000000000, none, none,
   some (.sha256 c2MintedToken), some 1010000⟩

/-- C2 witness: concrete instantiation of the amended theorem — two
in-grace refresh calls on the graced record both return the stored digest
and leave all state unchanged. -/
theorem c2_grace_idempotent_witness :
    AuthService.refresh [aliceUser] [c2GracedRec] [] c2Tok0 1005000 "uuid-B" "jti-B" "rec-B"
      = ⟨[c2GracedRec], [], none,
         .ok ⟨TokenManager.generateAccessToken "u1" "a@x.com" (1005000 / 1000) "jti-B",
              .sha256 c2MintedToken⟩⟩
    ∧ AuthService.refresh [aliceUser] [c2GracedRec] [] c2Tok0 1007000 "uuid-C" "jti-C" "rec-C"
      = ⟨[c2GracedRec], [], none,
         .ok ⟨TokenManager.generateAccessToken "u1" "a@x.com" (1007000 / 1000) "jti-C",
              .sha256 c2MintedToken⟩⟩
    ∧ Str.sha256 c2MintedToken ≠ c2MintedToken := by
  have h := c2_grace_idempotent_returns_stored_digest
    [aliceUser] [c2GracedRec] [] c2Tok0 c2GracedRec aliceUser
    (.sha256 c2MintedToken) 1010000 1005000 1007000
    ⟨"u1", "rec-0"⟩ ⟨"u1", "rec-0"⟩ "uuid-B" "jti-B" "rec-B" "uuid-C" "jti-C" "rec-C"
    rfl rfl rfl rfl rfl rfl rfl (by decide) (by decide) (by decide) (by decide)
  exact ⟨h.1, h.2.1, h.2.2.1 c2MintedToken rfl⟩

/-! ## C4 -/

/-- C4: for a request whose access token verifies and is not individually
blacklisted, with any present revocation epoch positive (every epoch the
code ever stores is a positive Unix timestamp): when an epoch exists the
guard rejects with Unauthorized exactly when the token's iat precedes the
epoch or the token carries no iat claim, and when no epoch exists or the
iat is at or after the epoch the request is admitted with {userId, email}
attached.  (A token with iat exactly 0 counts as preceding any positive
epoch; the code rejects it through its missing-iat branch, an Unauthorized
rejection all the same.) -/
theorem c4_authGuard_epoch_characterization
    (redis : RedisState) (tok : Str) (nowSec : Nat)
    (payload : TokenManager.AccessTokenPayload)
    (hv : TokenManager.verifyAccessToken tok nowSec = .ok payload)
    (hb : TokenBlacklist.isBlacklisted redis tok nowSec = false)
    (hpos : ∀ e, TokenBlacklist.getUserRevocationTimestamp redis payload.userId nowSec
        = some e → 0 < e) :
    (∀ e, TokenBlacklist.getUserRevocationTimestamp redis payload.userId nowSec = some e →
        payload.iat = none →
        ∃ msg, authGuard redis (some tok) nowSec = .error (.unauthorized msg))
  ∧ (∀ e i, TokenBlacklist.getUserRevocationTimestamp redis payload.userId nowSec = some e →
        payload.iat = some i → i < e →
        ∃ msg, authGuard redis (some tok) nowSec = .error (.unauthorized msg))
  ∧ (TokenBlacklist.getUserRevocationTimestamp redis payload.userId nowSec = none →
        authGuard redis (some tok) nowSec = .ok ⟨payload.userId, payload.email⟩)
  ∧ (∀ e i, TokenBlacklist.getUserRevocationTimestamp redis payload.userId nowSec = some e →
        payload.iat = some i → e ≤ i →
        authGuard redis (some tok) nowSec = .ok ⟨payload.userId, payload.email⟩) := by
  refine ⟨?_, ?_, ?_, ?_⟩
  · intro e hget hiat
    simp only [authGuard]
    rw [hv]
    simp only [hb, Bool.false_eq_true, if_false]
    rw [hget]
    have he : 0 < e := hpos e hget
    simp [truthyNat, hiat, Nat.pos_iff_ne_zero.mp he]
  · intro e i hget hiat hlt
    simp only [authGuard]
    rw [hv]
    simp only [hb, Bool.false_eq_true, if_false]
    rw [hget]
    have he : 0 < e := hpos e hget
    by_cases hi : i = 0
    · simp [truthyNat, hiat, hi, Nat.pos_iff_ne_zero.mp he]
    · simp [truthyNat, hiat, hi, Nat.pos_iff_ne_zero.mp he, hlt]
  · intro hget
    simp only [authGuard]
    rw [hv]
    simp only [hb, Bool.false_eq_true, if_false]
    rw [hget]
    simp [truthyNat]
  · intro e i hget hiat hle
    simp only [authGuard]
    rw [hv]
    simp only [hb, Bool.false_eq_true, if_false]
    rw [hget]
    have he : 0 < e := hpos e hget
    have hi : i ≠ 0 := by omega
    simp [truthyNat, hiat, hi, Nat.pos_iff_ne_zero.mp he, Nat.not_lt.mpr hle]

/-- The access token used by the C4 witness: issued at second 500. -/
def c4Tok : Str := TokenManager.generateAccessToken "u1" "a@x.com" 500 "jti-1"

/-- A revocation store with an epoch of second 800 for user u1, written at
second 800 with the 3600-second password-change window. -/
def c4Redis : RedisState := TokenBlacklist.revokeAllUserTokens [] "u1" 3600 800

/-- C4 witness: concrete instantiation of the guard characterization — the
token issued at second 500 is rejected against the epoch 800, and admitted
once the epoch entry has expired (checking at second 4500, past the
window). -/
theorem c4_authGuard_epoch_characterization_witness :
    (∃ msg, authGuard c4Redis (some c4Tok) 900 = .error (.unauthorized msg))
    ∧ authGuard c4Redis (some c4Tok) 900 = .error
        (.unauthorized "Token has been revoked by user security event") := by
  have h := c4_authGuard_epoch_characterization c4Redis c4Tok 900
    ⟨"u1", "a@x.com", some 500, some 1400⟩ rfl rfl
    (by intro e he; injection he with he; omega)
  exact ⟨(h.2.1 800 500 rfl rfl (by decide)), rfl⟩

/-! ## C3 -/

/-- Reading the user revocation epoch back after revokeAllUserTokens,
inside the TTL window, yields the stored timestamp. -/
theorem TokenBlacklist.getUserRevocationTimestamp_revokeAll
    (st : RedisState) (uid : String) (ttl nowSec tSec : Nat)
    (h : tSec < nowSec + ttl) :
    TokenBlacklist.getUserRevocationTimestamp
        (TokenBlacklist.revokeAllUserTokens st uid ttl nowSec) uid tSec
      = some nowSec := by
  unfold TokenBlacklist.getUserRevocationTimestamp TokenBlacklist.revokeAllUserTokens
  rw [RedisState.get_setEx_same _ _ _ _ _ _ h]

/-- After revokeAllByUserId, every record owned by the user is revoked. -/
theorem RefreshTokenRepository.revokeAllByUserId_all_revoked
    (db : List RefreshTokenRecord) (uid : String) (nowMs : Nat) :
    ∀ r ∈ RefreshTokenRepository.revokeAllByUserId db uid nowMs,
      r.userId = uid → r.revokedAt.isSome := by
  intro r hr huid
  rcases List.mem_map.mp hr with ⟨y, hy, hfy⟩
  by_cases hc : y.userId = uid ∧ y.revokedAt = none
  · rw [if_pos hc] at hfy
    rw [← hfy]
    rfl
  · rw [if_neg hc] at hfy
    rw [← hfy] at huid ⊢
    cases hyrev : y.revokedAt with
    | none => exact absurd ⟨huid, hyrev⟩ hc
    | some v => simp [hyrev]

/-- C3: when updatePassword succeeds at time nowMs (a positive Unix time),
(a) within the 3600-second revocation window every verified access token of
that user whose issuedAt precedes the call is rejected by the Access Guard
with Unauthorized, and (b) refresh fails with Unauthorized for every token
— in particular for every token whose ledger record (all of which predate
the call, since updatePassword creates no records) belongs to that user. -/
theorem c3_updatePassword_mass_revocation
    (users : List User) (db : List RefreshTokenRecord) (redis : RedisState)
    (userId curPw newPw : String) (nowMs : Nat)
    (users' : List User) (db' : List RefreshTokenRecord) (redis' : RedisState)
    (hok : AuthService.updatePassword users db redis userId curPw newPw nowMs
        = .ok (users', db', redis'))
    (hpos : 0 < nowMs / 1000) :
    (∀ tSec : Nat, ∀ tok : Str, ∀ payload : TokenManager.AccessTokenPayload, ∀ iatSec : Nat,
        nowMs / 1000 ≤ tSec → tSec < nowMs / 1000 + 3600 →
        TokenManager.verifyAccessToken tok tSec = .ok payload →
        payload.userId = userId →
        payload.iat = some iatSec → iatSec < nowMs / 1000 →
        ∃ msg, authGuard redis' (some tok) tSec = .error (.unauthorized msg))
  ∧ (∀ tok : Str, ∀ nowMs₂ : Nat, ∀ uu jt rid : String,
        (∀ r, RefreshTokenRepository.findByToken db' tok = some r → r.userId = userId) →
        ∃ msg, (AuthService.refresh users' db' redis' tok nowMs₂ uu jt rid).result
            = .error (.unauthorized msg)) := by
  unfold AuthService.updatePassword at hok
  cases hfindu : UserRepository.findById users userId with
  | none => rw [hfindu] at hok; exact absurd hok (by simp)
  | some user =>
    rw [hfindu] at hok
    cases hcmp : HashProvider.compare curPw user.password with
    | false =>
      simp [hcmp] at hok
    | true =>
      simp only [hcmp, if_true] at hok
      injection hok with hok
      injection hok with husers hok
      injection hok with hdb hredis
      subst husers
      subst hdb
      subst hredis
      constructor
      · intro tSec tok payload iatSec hlo hhi hv hpid hiat hpre
        simp only [authGuard]
        rw [hv]
        by_cases hbl : TokenBlacklist.isBlacklisted
            (TokenBlacklist.revokeAllUserTokens redis userId 3600 (nowMs / 1000)) tok tSec
        · simp only [hbl, if_true]
          exact ⟨_, rfl⟩
        · simp only [hbl, Bool.false_eq_true, if_false]
          rw [hpid, TokenBlacklist.getUserRevocationTimestamp_revokeAll redis userId 3600
            (nowMs / 1000) tSec hhi]
          by_cases hzero : iatSec = 0
          · simp [truthyNat, hiat, hzero, Nat.pos_iff_ne_zero.mp hpos]
          · simp [truthyNat, hiat, hzero, Nat.pos_iff_ne_zero.mp hpos, hpre]
      · intro tok nowMs₂ uu jt rid hscope
        cases hv : TokenManager.verifyRefreshToken tok (nowMs₂ / 1000) with
        | error e =>
          obtain ⟨m, hm⟩ := TokenManager.verifyRefreshToken_error hv
          subst hm
          simp only [AuthService.refresh]
          rw [hv]
          exact ⟨m, rfl⟩
        | ok p =>
          cases hf : RefreshTokenRepository.findByToken
              (RefreshTokenRepository.revokeAllByUserId db userId nowMs) tok with
          | none =>
            simp only [AuthService.refresh]
            rw [hv, hf]
            exact ⟨_, rfl⟩
          | some r =>
            have hruid := hscope r hf
            have hrmem := List.mem_of_find?_eq_some hf
            have hrrev := RefreshTokenRepository.revokeAllByUserId_all_revoked
              db userId nowMs r hrmem hruid
            simp only [AuthService.refresh]
            rw [hv, hf]
            simp only [hrrev, if_true]
            exact ⟨_, rfl⟩

/-- An access token of user u1 issued at second 4500 (before the concrete
password change at second 5000), not yet expired at second 5000. -/
def c3Tok : Str := TokenManager.generateAccessToken "u1" "a@x.com" 4500 "jti-3"

/-- The identity store after the concrete password change. -/
def c3Users : List User := [{ aliceUser with password := HashProvider.hash "pw2" }]

/-- The ledger after the concrete password change: the outstanding record
(keyed by the digest of the refresh JWT c2Tok0) is revoked. -/
def c3Db : List RefreshTokenRecord := [{ c2Rec0 with revokedAt := some 5000000 }]

/-- The revocation store after the concrete password change: epoch 5000
for u1, for 3600 seconds. -/
def c3Redis : RedisState := TokenBlacklist.revokeAllUserTokens [] "u1" 3600 5000

/-- C3 witness: a concrete password change at time 5000000 ms; the
pre-change access token is rejected by the guard inside the window, and
refresh with the outstanding (now revoked) refresh token fails with
Unauthorized (reuse detection). -/
theorem c3_updatePassword_mass_revocation_witness :
    AuthService.updatePassword [aliceUser] [c2Rec0] [] "u1" "pw" "pw2" 5000000
        = .ok (c3Users, c3Db, c3Redis)
    ∧ (∃ msg, authGuard c3Redis (some c3Tok) 5000 = .error (.unauthorized msg))
    ∧ (∃ msg, (AuthService.refresh c3Users c3Db c3Redis c2Tok0 5001000
          "uu" "jt" "rid").result = .error (.unauthorized msg)) := by
  have h := c3_updatePassword_mass_revocation [aliceUser] [c2Rec0] [] "u1" "pw" "pw2"
    5000000 c3Users c3Db c3Redis rfl (by decide)
  refine ⟨rfl, ?_, ?_⟩
  · exact h.1 5000 c3Tok ⟨"u1", "a@x.com", some 4500, some 5400⟩ 4500
      (by decide) (by decide) rfl rfl rfl (by decide)
  · refine h.2 c2Tok0 5001000 "uu" "jt" "rid" ?_
    intro r hr
    rw [show RefreshTokenRepository.findByToken c3Db c2Tok0
        = some { c2Rec0 with revokedAt := some 5000000 } from rfl] at hr
    injection hr with hr
    rw [← hr]
    rfl

/-! ## C8 -/

/-- Revocation is preserved from db to db': any record of db already
revoked stays revoked in db' under its id. -/
def revokedPreserved (db db' : List RefreshTokenRecord) : Prop :=
  ∀ r ∈ db, r.revokedAt.isSome → ∀ r' ∈ db', r'.id = r.id → r'.revokedAt.isSome

/-- C8: over a ledger whose ids are unique (the primary-key invariant the
database enforces), every repository operation preserves revocation: once
a record's revokedAt is non-null it stays non-null after create (which
only appends a fresh-id row), findByToken (read-only: it returns an
existing row), revoke (which only sets revokedAt to a non-null stamp),
setGracePeriod (which never touches revokedAt) and revokeAllByUserId
(which only sets null revokedAt fields). -/
theorem c8_revoked_is_terminal
    (db : List RefreshTokenRecord)
    (hids : ∀ a ∈ db, ∀ b ∈ db, a.id = b.id → a = b) :
    (∀ uid : String, ∀ tokS : Str, ∀ expMs : Nat, ∀ nid : String,
        ∀ db' : List RefreshTokenRecord, ∀ rec : RefreshTokenRecord,
        RefreshTokenRepository.create db uid tokS expMs nid = .ok (db', rec) →
        revokedPreserved db db')
  ∧ (∀ tokS : Str, ∀ r : RefreshTokenRecord,
        RefreshTokenRepository.findByToken db tokS = some r → r ∈ db)
  ∧ (∀ tid : String, ∀ rep : Option String, ∀ nowMs : Nat,
        ∀ db' : List RefreshTokenRecord, ∀ r' : RefreshTokenRecord,
        RefreshTokenRepository.revoke db tid rep nowMs = .ok (db', r') →
        revokedPreserved db db')
  ∧ (∀ tid : String, ∀ ntok : Str, ∀ gs nowMs : Nat,
        ∀ db' : List RefreshTokenRecord, ∀ r' : RefreshTokenRecord,
        RefreshTokenRepository.setGracePeriod db tid ntok gs nowMs = .ok (db', r') →
        revokedPreserved db db')
  ∧ (∀ uid : String, ∀ nowMs : Nat,
        revokedPreserved db (RefreshTokenRepository.revokeAllByUserId db uid nowMs)) := by
  refine ⟨?_, ?_, ?_, ?_, ?_⟩
  · intro uid tokS expMs nid db' rec hok
    unfold RefreshTokenRepository.create at hok
    by_cases hany : db.any (fun r => r.id = nid ∨ r.token = Str.sha256 tokS)
    · simp only [hany, if_true] at hok
      exact absurd hok (by simp)
    · simp only [hany, Bool.false_eq_true, if_false] at hok
      injection hok with hok
      rw [Prod.mk.injEq] at hok
      obtain ⟨hdb, hrec⟩ := hok
      subst hdb
      intro r hr hrev r' hr' hid
      rcases List.mem_append.mp hr' with hmem | hmem
      · rw [hids r' hmem r hr hid]
        exact hrev
      · simp only [List.mem_singleton] at hmem
        subst hmem
        simp only [List.any_eq_true, not_exists, not_and] at hany
        have := hany r hr
        simp only [decide_eq_true_eq, not_or] at this
        exact absurd hid.symm this.1
  · intro tokS r hf
    exact List.mem_of_find?_eq_some hf
  · intro tid rep nowMs db' r' hok
    unfold RefreshTokenRepository.revoke at hok
    cases hfind : db.find? (fun x => x.id = tid) with
    | none => rw [hfind] at hok; exact absurd hok (by simp)
    | some w =>
      rw [hfind] at hok
      injection hok with hok
      rw [Prod.mk.injEq] at hok
      obtain ⟨hdb, _⟩ := hok
      subst hdb
      intro r hr hrev r₂ hr₂ hid
      rcases List.mem_map.mp hr₂ with ⟨y, hy, hfy⟩
      by_cases hyid : y.id = tid
      · rw [if_pos hyid] at hfy
        rw [← hfy]
        rfl
      · rw [if_neg hyid] at hfy
        rw [← hfy] at hid ⊢
        rw [hids y hy r hr hid]
        exact hrev
  · intro tid ntok gs nowMs db' r' hok
    unfold RefreshTokenRepository.setGracePeriod at hok
    cases hfind : db.find? (fun x => x.id = tid) with
    | none => rw [hfind] at hok; exact absurd hok (by simp)
    | some w =>
      rw [hfind] at hok
      injection hok with hok
      rw [Prod.mk.injEq] at hok
      obtain ⟨hdb, _⟩ := hok
      subst hdb
      intro r hr hrev r₂ hr₂ hid
      rcases List.mem_map.mp hr₂ with ⟨y, hy, hfy⟩
      by_cases hyid : y.id = tid
      · rw [if_pos hyid] at hfy
        rw [← hfy] at hid ⊢
        have hyr : y = r := hids y hy r hr hid
        rw [hyr]
        exact hrev
      · rw [if_neg hyid] at hfy
        rw [← hfy] at hid ⊢
        rw [hids y hy r hr hid]
        exact hrev
  · intro uid nowMs
    intro r hr hrev r₂ hr₂ hid
    rcases List.mem_map.mp hr₂ with ⟨y, hy, hfy⟩
    by_cases hc : y.userId = uid ∧ y.revokedAt = none
    · rw [if_pos hc] at hfy
      rw [← hfy]
      rfl
    · rw [if_neg hc] at hfy
      rw [← hfy] at hid ⊢
      rw [hids y hy r hr hid]
      exact hrev

/-- C8 witness: the invariant instantiated on a concrete one-record ledger
holding a revoked record, for a concrete revoke and a concrete bulk
revocation. -/
theorem c8_revoked_is_terminal_witness :
    (∀ db' : List RefreshTokenRecord, ∀ r' : RefreshTokenRecord,
        RefreshTokenRepository.revoke [c7RevokedRec] "rec-0" (some "rec-1") 7 = .ok (db', r') →
        revokedPreserved [c7RevokedRec] db')
    ∧ revokedPreserved [c7RevokedRec]
        (RefreshTokenRepository.revokeAllByUserId [c7RevokedRec] "u1" 7) := by
  have hids : ∀ a ∈ [c7RevokedRec], ∀ b ∈ [c7RevokedRec], a.id = b.id → a = b := by
    intro a ha b hb _
    simp only [List.mem_singleton] at ha hb
    rw [ha, hb]
  have h := c8_revoked_is_terminal [c7RevokedRec] hids
  exact ⟨fun db' r' hok => h.2.2.1 "rec-0" (some "rec-1") 7 db' r' hok, h.2.2.2.2 "u1" 7⟩
